import Mathlib

/-!
Verification development for the embeddings-for-code-diffs repository.

The Python sources are embedded shallowly: tensors become nested lists,
batches become structures, and external library calls (the LSTM kernel of
the encoder, the repository mining of the dataset builder) become explicit
parameters or input lists.  Machine floating point never matters for the
properties below, so loss values stay abstract.
-/

/-- Python slicing with step two, `l[0::2]`: every other element, starting
with the first. -/
def everyOther {α : Type} : List α → List α
  | [] => []
  | [a] => [a]
  | a :: _ :: rest => a :: everyOther rest

/-- Change type of a file modification, as exposed by the mining library
(pydriller.ModificationType). -/
inductive PatchNet.ModType
  | ADD
  | COPY
  | RENAME
  | DELETE
  | MODIFY
  | UNKNOWN
deriving DecidableEq

/-- The part of a mined file modification that the dataset builder reads:
its change type and its git diff text. -/
structure PatchNet.Modification where
  change_type : PatchNet.ModType
  diff : String
deriving DecidableEq

/-- The part of a mined commit (pydriller.Commit) that the dataset builder
reads: its hash and its file modifications. -/
structure PatchNet.MinedCommit where
  hash : String
  modifications : List PatchNet.Modification
deriving DecidableEq

/-- Python str.splitlines(keepends=False) restricted to newline boundaries:
split on a newline character, with no empty trailing line when the string
ends in a newline. -/
def pySplitlines (s : String) : List String :=
  if s = "" then []
  else
    let parts := s.splitOn (String.singleton (Char.ofNat 10))
    if parts.getLast? = some "" then parts.dropLast else parts

def PatchNet.MAX_DIFF_LENGTH : Nat := 100

/-- PatchNetDataset.is_greater_than_max_number_of_lines_in_diff: sums the
line counts of the git diffs of the MODIFY modifications of a commit and
compares with MAX_DIFF_LENGTH. -/
def PatchNet.is_greater_than_max_number_of_lines_in_diff
    (commit : PatchNet.MinedCommit) : Bool :=
  let total_num_of_lines :=
    commit.modifications.foldl
      (fun acc modification =>
        if modification.change_type = PatchNet.ModType.MODIFY
        then acc + (pySplitlines modification.diff).length
        else acc) 0
  total_num_of_lines > PatchNet.MAX_DIFF_LENGTH

/-- The Commit class of the repository, keeping the fields the claims
read; the mined code itself comes from the external mining library and
is not consulted by any property below. -/
structure PatchNet.Commit where
  repository : String
  commit_hash : String
deriving DecidableEq

/-- DataSample: a commit with its stability label and position index.
The stable field is Optional[bool] in the source, hence Option Bool here. -/
structure PatchNet.DataSample where
  commit : PatchNet.Commit
  stable : Option Bool
  idx : Nat
deriving DecidableEq

/-- PatchNetDataset.extract_data_samples_for_pre_train, with the list of
commits produced by the external RepositoryMining call passed in
explicitly.  The loop keeps a commit unless its diff is too long, and
wraps each kept commit with stable = False and its enumeration index. -/
def PatchNet.extract_data_samples_for_pre_train (repository_path : String)
    (commits : List PatchNet.MinedCommit) : List PatchNet.DataSample :=
  (commits.enum.filter
      (fun p => !PatchNet.is_greater_than_max_number_of_lines_in_diff p.2)).map
    (fun p =>
      { commit := { repository := repository_path, commit_hash := p.2.hash },
        stable := some false,
        idx := p.1 })

/-- Python truthiness of an Optional[bool]: None and False are falsy. -/
def pyTruthy : Option Bool → Bool
  | some true => true
  | _ => false

/-- The dataset object; only the data_samples field is read by the
claims below. -/
structure PatchNet.PatchNetDataset where
  data_samples : List PatchNet.DataSample

def PatchNet.PatchNetDataset.get_stable_patches
    (d : PatchNet.PatchNetDataset) : List PatchNet.DataSample :=
  d.data_samples.filter (fun data_sample => pyTruthy data_sample.stable)

def PatchNet.PatchNetDataset.get_unstable_patches
    (d : PatchNet.PatchNetDataset) : List PatchNet.DataSample :=
  d.data_samples.filter (fun data_sample => !pyTruthy data_sample.stable)

/-- The description_filepath = None branch of PatchNetDataset.__init__:
data_samples comes from extract_data_samples_for_pre_train. -/
def PatchNet.PatchNetDataset.ofPreTrain (repository_path : String)
    (commits : List PatchNet.MinedCommit) : PatchNet.PatchNetDataset :=
  { data_samples := PatchNet.extract_data_samples_for_pre_train repository_path commits }

/-- PatchNetDataset.get_examples_text_data on the list of lines of the
description file: zip(lines[0::2], lines[1::2]). -/
def PatchNet.get_examples_text_data (description_lines : List String) :
    List (String × String) :=
  (everyOther description_lines).zip (everyOther (description_lines.drop 1))

/-- Elementwise inequality mask of a [B, T] token tensor against the pad
index, as a Bool tensor of the same shape. -/
def Seq2Seq.neMask (t : List (List Nat)) (pad_index : Nat) : List (List Bool) :=
  t.map (fun row => row.map (fun tok => tok != pad_index))

/-- torch unsqueeze(-2) on a [B, T] tensor: insert a singleton dimension
before the last one, giving shape [B, 1, T]. -/
def Seq2Seq.unsqueezeMinus2 (m : List (List Bool)) : List (List (List Bool)) :=
  m.map (fun row => [row])

/-- The Batch object of neural_editor/seq2seq/Batch.py, with tensors as
nested lists.  The CUDA transfer at the end of __init__ moves tensors
between devices without changing their values, so it is the identity
here. -/
structure Seq2Seq.Batch where
  diff_alignment : List (List Nat)
  diff_alignment_lengths : List Nat
  diff_alignment_mask : List (List (List Bool))
  diff_prev : List (List Nat)
  diff_prev_lengths : List Nat
  diff_prev_mask : List (List (List Bool))
  diff_updated : List (List Nat)
  diff_updated_lengths : List Nat
  diff_updated_mask : List (List (List Bool))
  src : List (List Nat)
  src_lengths : List Nat
  src_mask : List (List (List Bool))
  nseqs : Nat
  trg : Option (List (List Nat))
  trg_y : Option (List (List Nat))
  trg_mask : Option (List (List Bool))
  trg_lengths : Option (List Nat)
  ntokens : Option Nat

/-- Batch.__init__: each of src and the three diff tensors arrives as a
(tensor, lengths) pair; trg is optional.  Masks compare against the pad
index; the target tensor is split into trg (last time step dropped) and
trg_y (first time step dropped), and ntokens counts the non-pad entries
of trg_y. -/
def Seq2Seq.Batch.init (src : List (List Nat) × List Nat)
    (trg : Option (List (List Nat) × List Nat))
    (diff_alignment diff_prev diff_updated : List (List Nat) × List Nat)
    (pad_index : Nat) : Seq2Seq.Batch :=
  let trg_fields :
      Option (List (List Nat)) × Option (List (List Nat)) ×
        Option (List (List Bool)) × Option (List Nat) × Option Nat :=
    match trg with
    | none => (none, none, none, none, none)
    | some tp =>
      let trg_full := tp.1
      let trg_cut := trg_full.map (fun row => row.take (row.length - 1))
      let trg_y := trg_full.map (fun row => row.drop 1)
      (some trg_cut, some trg_y, some (Seq2Seq.neMask trg_y pad_index), some tp.2,
       some ((trg_y.map (fun row => row.countP (fun tok => tok != pad_index))).sum))
  { diff_alignment := diff_alignment.1
    diff_alignment_lengths := diff_alignment.2
    diff_alignment_mask := Seq2Seq.unsqueezeMinus2 (Seq2Seq.neMask diff_alignment.1 pad_index)
    diff_prev := diff_prev.1
    diff_prev_lengths := diff_prev.2
    diff_prev_mask := Seq2Seq.unsqueezeMinus2 (Seq2Seq.neMask diff_prev.1 pad_index)
    diff_updated := diff_updated.1
    diff_updated_lengths := diff_updated.2
    diff_updated_mask := Seq2Seq.unsqueezeMinus2 (Seq2Seq.neMask diff_updated.1 pad_index)
    src := src.1
    src_lengths := src.2
    src_mask := Seq2Seq.unsqueezeMinus2 (Seq2Seq.neMask src.1 pad_index)
    nseqs := src.1.length
    trg := trg_fields.1
    trg_y := trg_fields.2.1
    trg_mask := trg_fields.2.2.1
    trg_lengths := trg_fields.2.2.2.1
    ntokens := trg_fields.2.2.2.2 }

/-- An embedding vector: one feature row of a tensor. -/
abbrev Seq2Seq.Emb := List Int

/-- What the packed LSTM call of Encoder.forward produces once unpacked:
the padded output [B, SeqLen, 2H] and the raw final hidden and cell
states [NumLayers * 2, B, H], forward and backward directions
interleaved. -/
structure Seq2Seq.RnnResult where
  output : List (List Seq2Seq.Emb)
  h_n : List (List Seq2Seq.Emb)
  c_n : List (List Seq2Seq.Emb)

/-- The manual concatenation of the final states of the two directions in
Encoder.forward: fwd = states[0::2], bwd = states[1::2], then
torch.cat([fwd, bwd], dim=2), i.e. featurewise append per layer and per
batch row. -/
def Seq2Seq.catFinalStates (states : List (List Seq2Seq.Emb)) : List (List Seq2Seq.Emb) :=
  let fwd_final := everyOther states
  let bwd_final := everyOther states.tail
  List.zipWith (fun f b => List.zipWith (fun xe ye => xe ++ ye) f b) fwd_final bwd_final

/-- torch.sort(lengths, descending=True) returns sorted values and the
permutation of indices producing them; this is that permutation, one
valid sort of the index range by descending length. -/
def Seq2Seq.sortPermDesc (lengths : List Nat) : List Nat :=
  (List.range lengths.length).mergeSort
    (fun i j => lengths.getD j 0 ≤ lengths.getD i 0)

/-- torch.argsort on a tensor holding a permutation of 0..n-1: position
of each value in the list, i.e. the inverse permutation. -/
def Seq2Seq.argsortPerm (perm : List Nat) : List Nat :=
  (List.range perm.length).map (fun v => perm.indexOf v)

/-- Encoder.forward of neural_editor/seq2seq/encoder/Encoder.py.  The
composite pack_padded_sequence / LSTM / pad_packed_sequence call is the
abstract parameter rnn, a function of the padded inputs and their
lengths (pack_padded_sequence is determined by exactly these two
arguments).  The sort=True branch sorts the batch by descending length,
runs the same body, and applies the argsort of the sort permutation to
the output rows and to the batch dimension of the final states. -/
def Seq2Seq.Encoder.forward
    (rnn : List (List Seq2Seq.Emb) → List Nat → Seq2Seq.RnnResult)
    (x : List (List Seq2Seq.Emb)) (lengths : List Nat) (sort : Bool) :
    List (List Seq2Seq.Emb) × (List (List Seq2Seq.Emb) × List (List Seq2Seq.Emb)) :=
  if sort then
    let lengths_mask := Seq2Seq.sortPermDesc lengths
    let sorted_lengths := lengths_mask.map (fun i => lengths.getD i 0)
    let x_sorted := lengths_mask.map (fun i => x.getD i [])
    let r := rnn x_sorted sorted_lengths
    let h_n := Seq2Seq.catFinalStates r.h_n
    let c_n := Seq2Seq.catFinalStates r.c_n
    let lengths_mask_reverse := Seq2Seq.argsortPerm lengths_mask
    (lengths_mask_reverse.map (fun i => r.output.getD i []),
     (h_n.map (fun layer => lengths_mask_reverse.map (fun i => layer.getD i [])),
      c_n.map (fun layer => lengths_mask_reverse.map (fun i => layer.getD i []))))
  else
    let r := rnn x lengths
    (r.output, (Seq2Seq.catFinalStates r.h_n, Seq2Seq.catFinalStates r.c_n))

/-- The specification reading of the sort=True branch: first sort the
batch by descending length, run the sort=False path of Encoder.forward
on the sorted batch, then permute the output rows and the batch
dimension of both final states back to the original order. -/
def Seq2Seq.Encoder.forwardSpecViaSort
    (rnn : List (List Seq2Seq.Emb) → List Nat → Seq2Seq.RnnResult)
    (x : List (List Seq2Seq.Emb)) (lengths : List Nat) :
    List (List Seq2Seq.Emb) × (List (List Seq2Seq.Emb) × List (List Seq2Seq.Emb)) :=
  let perm := Seq2Seq.sortPermDesc lengths
  let r := Seq2Seq.Encoder.forward rnn (perm.map (fun i => x.getD i []))
    (perm.map (fun i => lengths.getD i 0)) false
  let inv := Seq2Seq.argsortPerm perm
  (inv.map (fun i => r.1.getD i []),
   (r.2.1.map (fun layer => inv.map (fun i => layer.getD i [])),
    r.2.2.map (fun layer => inv.map (fun i => layer.getD i []))))

/-- The three tracked side effects of a ClassifierLossCompute call:
loss.backward(), optimizer.step(), optimizer.zero_grad(). -/
inductive Seq2Seq.TrainEffect
  | backward
  | step
  | zero_grad
deriving DecidableEq

/-- ClassifierLossCompute of neural_editor/seq2seq/ClassifierLossCompute.py.
Tensors, loss values and optimizers stay abstract types; the criterion
is the stored loss module. -/
structure Seq2Seq.ClassifierLossCompute (T V O : Type) where
  criterion : T → T → V
  optimizer : Option O

/-- ClassifierLossCompute.get_loss: criterion(x, y.float()); the float
cast is the abstract parameter float. -/
def Seq2Seq.ClassifierLossCompute.get_loss {T V O : Type}
    (c : Seq2Seq.ClassifierLossCompute T V O) (float : T → T) (x y : T) : V :=
  c.criterion x (float y)

/-- ClassifierLossCompute.__call__: computes the loss and, when an
optimizer is present, performs backward, step and zero_grad in that
order; the performed effects are returned as an explicit trace next to
the scalar loss value. -/
def Seq2Seq.ClassifierLossCompute.call {T V O : Type}
    (c : Seq2Seq.ClassifierLossCompute T V O) (float : T → T) (x y : T) :
    V × List Seq2Seq.TrainEffect :=
  let loss := c.get_loss float x y
  match c.optimizer with
  | none => (loss, [])
  | some _ =>
    (loss, [Seq2Seq.TrainEffect.backward, Seq2Seq.TrainEffect.step,
            Seq2Seq.TrainEffect.zero_grad])

/-- Interpretation of an effect trace on an abstract training state
(model parameters and gradients), given the meaning of each effect. -/
def Seq2Seq.runEffects {P : Type} (backwardFn stepFn zeroFn : P → P) :
    List Seq2Seq.TrainEffect → P → P
  | [], s => s
  | e :: rest, s =>
    Seq2Seq.runEffects backwardFn stepFn zeroFn rest
      (match e with
       | Seq2Seq.TrainEffect.backward => backwardFn s
       | Seq2Seq.TrainEffect.step => stepFn s
       | Seq2Seq.TrainEffect.zero_grad => zeroFn s)

/-- A partial decoding hypothesis of the beam search: generated tokens
with an accumulated score. -/
structure Seq2Seq.Hypothesis where
  tokens : List Nat
  score : Int
deriving DecidableEq

/-- Modelled from the spec: one generation step of the beam search built
by create_decode_method in neural_editor/seq2seq/decoder/search.py,
which is not among the sources here.  Following the specification
glossary, beam search is a decoding heuristic retaining the top-k
partial hypotheses at each generation step: expand every current
hypothesis, order the candidates by descending score, and keep the best
beam_size of them. -/
def Seq2Seq.beamStep (expand : Seq2Seq.Hypothesis → List Seq2Seq.Hypothesis)
    (beam_size : Nat) (beams : List Seq2Seq.Hypothesis) : List Seq2Seq.Hypothesis :=
  (((beams.map expand).flatten).mergeSort
      (fun a b => b.score ≤ a.score)).take beam_size

/-- Modelled from the spec: the full beam search run by the decode
method of create_decode_method, starting from the start-of-sequence
hypothesis and performing num_iterations generation steps. -/
def Seq2Seq.beamSearchRun (expand : Seq2Seq.Hypothesis → List Seq2Seq.Hypothesis)
    (num_iterations beam_size sos_index : Nat) : List Seq2Seq.Hypothesis :=
  (fun beams => Seq2Seq.beamStep expand beam_size beams)^[num_iterations]
    [{ tokens := [sos_index], score := 0 }]

/-- Modelled from the spec: create_decode_method of
neural_editor/seq2seq/decoder/search.py configures the beam search with
the given iteration budget and beam size; the model, the batch and the
vocabulary are abstracted into the expansion function. -/
def Seq2Seq.create_decode_method
    (expand : Seq2Seq.Hypothesis → List Seq2Seq.Hypothesis)
    (num_iterations sos_index _eos_index beam_size : Nat) : List Seq2Seq.Hypothesis :=
  Seq2Seq.beamSearchRun expand num_iterations beam_size sos_index

/-- The configuration entries that AccuracyCalculation.__init__ reads;
the start / end of sequence indices already looked up from the target
vocabulary. -/
structure Seq2Seq.Config where
  TOKENS_CODE_CHUNK_MAX_LEN : Nat
  BEAM_SIZE : Nat
  sos_index : Nat
  eos_index : Nat

/-- The fields of AccuracyCalculation relevant to decoding: the beam
size from the configuration, and the configured beam search. -/
structure Seq2Seq.AccuracyCalculation where
  beam_size : Nat
  eos_index : Nat
  beam_search : List Seq2Seq.Hypothesis

/-- AccuracyCalculation.__init__ of
neural_editor/seq2seq/experiments/AccuracyCalculation.py: sets
num_iterations to TOKENS_CODE_CHUNK_MAX_LEN + 1 and builds the decode
method with create_decode_method using BEAM_SIZE. -/
def Seq2Seq.AccuracyCalculation.init (config : Seq2Seq.Config)
    (expand : Seq2Seq.Hypothesis → List Seq2Seq.Hypothesis) :
    Seq2Seq.AccuracyCalculation :=
  let num_iterations := config.TOKENS_CODE_CHUNK_MAX_LEN + 1
  { beam_size := config.BEAM_SIZE
    eos_index := config.eos_index
    beam_search := Seq2Seq.create_decode_method expand num_iterations
      config.sos_index config.eos_index config.BEAM_SIZE }

theorem everyOther_length {α : Type} (l : List α) :
    (everyOther l).length = (l.length + 1) / 2 := by
  induction l using everyOther.induct with
  | case1 => simp [everyOther]
  | case2 a => simp [everyOther]
  | case3 a b rest ih =>
    simp only [everyOther, List.length_cons, ih]
    omega

theorem everyOther_getElem? {α : Type} (l : List α) (i : Nat) :
    (everyOther l)[i]? = l[2 * i]? := by
  induction l using everyOther.induct generalizing i with
  | case1 => simp [everyOther]
  | case2 a =>
    match i with
    | 0 => rfl
    | i + 1 => simp [everyOther]; omega
  | case3 a b rest ih =>
    match i with
    | 0 => simp [everyOther]
    | i + 1 =>
      have h2 : 2 * (i + 1) = 2 * i + 1 + 1 := by omega
      simp only [everyOther, h2, List.getElem?_cons_succ, ih]

theorem length_filter_add_length_filter_not {α : Type} (l : List α) (p : α → Bool) :
    (l.filter p).length + (l.filter (fun a => !p a)).length = l.length := by
  induction l with
  | nil => rfl
  | cons a l ih =>
    by_cases h : p a = true <;>
      simp [List.filter_cons, h, Nat.succ_eq_add_one] <;> omega

theorem pyTruthy_iff (o : Option Bool) : pyTruthy o = true ↔ o = some true := by
  cases o with
  | none => simp [pyTruthy]
  | some b => cases b <;> simp [pyTruthy]

/-- C10: get_examples_text_data pairs line 2i with line 2i+1, returns
exactly floor(n/2) pairs, and when the number of lines is odd the final
line appears in no pair. -/
theorem PatchNet.get_examples_text_data_pairs (description_lines : List String) :
    (PatchNet.get_examples_text_data description_lines).length =
        description_lines.length / 2 ∧
    (∀ i, i < description_lines.length / 2 →
      (PatchNet.get_examples_text_data description_lines).getD i ("", "") =
        (description_lines.getD (2 * i) "", description_lines.getD (2 * i + 1) "")) ∧
    (Odd description_lines.length →
      ∀ i, i < description_lines.length / 2 →
        2 * i ≠ description_lines.length - 1 ∧
        2 * i + 1 ≠ description_lines.length - 1) := by
  refine ⟨?_, ?_, ?_⟩
  · simp only [PatchNet.get_examples_text_data, List.length_zip, everyOther_length,
      List.length_drop]
    omega
  · intro i hi
    have h1 : 2 * i < description_lines.length := by omega
    have h2 : 2 * i + 1 < description_lines.length := by omega
    rw [PatchNet.get_examples_text_data, List.zip_eq_zipWith,
        List.getD_eq_getElem?_getD, List.getElem?_zipWith, everyOther_getElem?,
        everyOther_getElem?, List.getElem?_drop]
    have e1 : description_lines[2 * i]? = some description_lines[2 * i] :=
      List.getElem?_eq_getElem h1
    have e2 : description_lines[1 + 2 * i]? = some description_lines[2 * i + 1] := by
      have : 1 + 2 * i = 2 * i + 1 := by omega
      rw [this]
      exact List.getElem?_eq_getElem h2
    rw [e1, e2]
    rw [List.getD_eq_getElem description_lines "" h1,
        List.getD_eq_getElem description_lines "" h2]
    rfl
  · intro hodd i hi
    rw [Nat.odd_iff] at hodd
    omega

/-- C7: get_stable_patches returns exactly the data samples whose stable
field is true and get_unstable_patches exactly the others, each in
dataset order, and the two lengths sum to the dataset size. -/
theorem PatchNet.PatchNetDataset.stable_unstable_partition
    (d : PatchNet.PatchNetDataset) :
    (∀ ds, ds ∈ d.get_stable_patches ↔
      ds ∈ d.data_samples ∧ ds.stable = some true) ∧
    (∀ ds, ds ∈ d.get_unstable_patches ↔
      ds ∈ d.data_samples ∧ ds.stable ≠ some true) ∧
    d.get_stable_patches.Sublist d.data_samples ∧
    d.get_unstable_patches.Sublist d.data_samples ∧
    d.get_stable_patches.length + d.get_unstable_patches.length =
      d.data_samples.length := by
  refine ⟨?_, ?_, ?_, ?_, ?_⟩
  · intro ds
    simp [PatchNet.PatchNetDataset.get_stable_patches, List.mem_filter, pyTruthy_iff]
  · intro ds
    simp only [PatchNet.PatchNetDataset.get_unstable_patches, List.mem_filter,
      Bool.not_eq_true']
    constructor
    · rintro ⟨hmem, hfalse⟩
      refine ⟨hmem, fun hcontra => ?_⟩
      rw [← pyTruthy_iff] at hcontra
      rw [hcontra] at hfalse
      cases hfalse
    · rintro ⟨hmem, hne⟩
      refine ⟨hmem, ?_⟩
      cases htruthy : pyTruthy ds.stable with
      | false => rfl
      | true => exact absurd ((pyTruthy_iff ds.stable).mp htruthy) hne
  · exact List.filter_sublist d.data_samples
  · exact List.filter_sublist d.data_samples
  · exact length_filter_add_length_filter_not d.data_samples
      (fun ds => pyTruthy ds.stable)

/-- C9: every data sample produced by extract_data_samples_for_pre_train
carries stable = False, so a dataset built without a description file
has no stable patches and only unstable ones. -/
theorem PatchNet.pre_train_all_unstable (repository_path : String)
    (commits : List PatchNet.MinedCommit) :
    (PatchNet.extract_data_samples_for_pre_train repository_path commits).all
        (fun ds => ds.stable == some false) = true ∧
    (PatchNet.PatchNetDataset.ofPreTrain repository_path commits).get_stable_patches
        = [] ∧
    (PatchNet.PatchNetDataset.ofPreTrain repository_path commits).get_unstable_patches
        = (PatchNet.PatchNetDataset.ofPreTrain repository_path commits).data_samples := by
  refine ⟨?_, ?_, ?_⟩
  · rw [List.all_eq_true]
    intro ds hds
    rw [PatchNet.extract_data_samples_for_pre_train, List.mem_map] at hds
    obtain ⟨p, _, hp⟩ := hds
    rw [← hp]
    rfl
  · rw [PatchNet.PatchNetDataset.get_stable_patches, List.filter_eq_nil_iff]
    intro ds hds
    rw [PatchNet.PatchNetDataset.ofPreTrain] at hds
    simp only [PatchNet.extract_data_samples_for_pre_train, List.mem_map] at hds
    obtain ⟨p, _, hp⟩ := hds
    rw [← hp]
    simp [pyTruthy]
  · rw [PatchNet.PatchNetDataset.get_unstable_patches, List.filter_eq_self]
    intro ds hds
    rw [PatchNet.PatchNetDataset.ofPreTrain] at hds
    simp only [PatchNet.extract_data_samples_for_pre_train, List.mem_map] at hds
    obtain ⟨p, _, hp⟩ := hds
    rw [← hp]
    rfl

theorem PatchNet.foldl_modify_sum (mods : List PatchNet.Modification) (acc : Nat) :
    mods.foldl
        (fun acc modification =>
          if modification.change_type = PatchNet.ModType.MODIFY
          then acc + (pySplitlines modification.diff).length
          else acc) acc =
      acc + ((mods.filter
          (fun m => m.change_type = PatchNet.ModType.MODIFY)).map
        (fun m => (pySplitlines m.diff).length)).sum := by
  induction mods generalizing acc with
  | nil => simp
  | cons m mods ih =>
    rw [List.foldl_cons, List.filter_cons, ih]
    by_cases h : m.change_type = PatchNet.ModType.MODIFY
    · have hc : (decide (m.change_type = PatchNet.ModType.MODIFY)) = true := by
        simp [h]
      rw [if_pos h, if_pos hc, List.map_cons, List.sum_cons]
      omega
    · have hc : ¬ ((decide (m.change_type = PatchNet.ModType.MODIFY)) = true) := by
        simp [h]
      rw [if_neg h, if_neg hc]

theorem PatchNet.is_greater_iff_sum (c : PatchNet.MinedCommit) :
    PatchNet.is_greater_than_max_number_of_lines_in_diff c = false ↔
      ((c.modifications.filter
          (fun m => m.change_type = PatchNet.ModType.MODIFY)).map
        (fun m => (pySplitlines m.diff).length)).sum ≤ PatchNet.MAX_DIFF_LENGTH := by
  rw [PatchNet.is_greater_than_max_number_of_lines_in_diff]
  simp only [PatchNet.foldl_modify_sum, Nat.zero_add]
  simp [Nat.not_lt]

/-- C5: a mined commit is dropped by extract_data_samples_for_pre_train
exactly when the git diff line count summed over its MODIFY
modifications exceeds MAX_DIFF_LENGTH; modifications of any other
change type never contribute to that count. -/
theorem PatchNet.pre_train_filter_iff (repository_path : String)
    (commits : List PatchNet.MinedCommit) (i : Nat) (hi : i < commits.length) :
    ((∃ ds ∈ PatchNet.extract_data_samples_for_pre_train repository_path commits,
        ds.idx = i) ↔
      ((commits[i].modifications.filter
          (fun m => m.change_type = PatchNet.ModType.MODIFY)).map
        (fun m => (pySplitlines m.diff).length)).sum ≤ PatchNet.MAX_DIFF_LENGTH) ∧
    (∀ commit : PatchNet.MinedCommit, ∀ m : PatchNet.Modification,
      m.change_type ≠ PatchNet.ModType.MODIFY →
        PatchNet.is_greater_than_max_number_of_lines_in_diff
            { commit with modifications := commit.modifications ++ [m] } =
          PatchNet.is_greater_than_max_number_of_lines_in_diff commit) := by
  constructor
  · rw [← PatchNet.is_greater_iff_sum]
    constructor
    · rintro ⟨ds, hmem, hidx⟩
      rw [PatchNet.extract_data_samples_for_pre_train, List.mem_map] at hmem
      obtain ⟨p, hpfilter, hpds⟩ := hmem
      rw [List.mem_filter] at hpfilter
      obtain ⟨hpenum, hpkeep⟩ := hpfilter
      have hidx1 : p.1 = i := by rw [← hpds] at hidx; exact hidx
      rw [List.mem_enum_iff_getElem?, hidx1, List.getElem?_eq_getElem hi] at hpenum
      have hc : p.2 = commits[i] := (Option.some_inj.mp hpenum).symm
      rw [hc] at hpkeep
      cases hgr : PatchNet.is_greater_than_max_number_of_lines_in_diff commits[i] with
      | false => rfl
      | true => rw [hgr] at hpkeep; cases hpkeep
    · intro hkeep
      refine ⟨{ commit := { repository := repository_path,
                            commit_hash := commits[i].hash },
                stable := some false, idx := i }, ?_, rfl⟩
      rw [PatchNet.extract_data_samples_for_pre_train, List.mem_map]
      refine ⟨(i, commits[i]), ?_, rfl⟩
      rw [List.mem_filter]
      refine ⟨?_, ?_⟩
      · rw [List.mem_enum_iff_getElem?]
        exact List.getElem?_eq_getElem hi
      · rw [hkeep]
        rfl
  · intro commit m hm
    rw [PatchNet.is_greater_than_max_number_of_lines_in_diff,
        PatchNet.is_greater_than_max_number_of_lines_in_diff]
    simp only [List.foldl_append, List.foldl_cons, List.foldl_nil]
    rw [if_neg hm]

/-- Concrete commit used to instantiate the C5 theorem. -/
def PatchNet.testCommitSmall : PatchNet.MinedCommit :=
  { hash := "aaa",
    modifications := [{ change_type := PatchNet.ModType.ADD, diff := "x" }] }

theorem PatchNet.pre_train_filter_iff_witness :
    ∃ ds ∈ PatchNet.extract_data_samples_for_pre_train "linux"
        [PatchNet.testCommitSmall], ds.idx = 0 :=
  ((PatchNet.pre_train_filter_iff "linux" [PatchNet.testCommitSmall] 0
      (by decide)).1).mpr (by decide)

theorem Seq2Seq.neMask_getD (t : List (List Nat)) (p i j : Nat) :
    ((Seq2Seq.neMask t p).getD i []).getD j false = true ↔
      (t.getD i []).getD j p ≠ p := by
  rw [Seq2Seq.neMask]
  by_cases hi : i < t.length
  · rw [List.getD_eq_getElem (t.map _) [] (by simpa using hi), List.getElem_map,
        List.getD_eq_getElem t [] hi]
    by_cases hj : j < t[i].length
    · rw [List.getD_eq_getElem _ false (by simpa using hj), List.getElem_map,
          List.getD_eq_getElem _ p hj]
      exact bne_iff_ne
    · rw [List.getD_eq_default _ false (by simpa using Nat.le_of_not_lt hj),
          List.getD_eq_default _ p (Nat.le_of_not_lt hj)]
      simp
  · rw [List.getD_eq_default (t.map _) [] (by simpa using Nat.le_of_not_lt hi),
        List.getD_eq_default t [] (Nat.le_of_not_lt hi)]
    simp

theorem Seq2Seq.unsqueezeMinus2_getD (m : List (List Bool)) (i : Nat) :
    ((Seq2Seq.unsqueezeMinus2 m).getD i []).getD 0 [] = m.getD i [] := by
  rw [Seq2Seq.unsqueezeMinus2]
  by_cases hi : i < m.length
  · rw [List.getD_eq_getElem (m.map _) [] (by simpa using hi), List.getElem_map,
        List.getD_eq_getElem m [] hi]
    rfl
  · rw [List.getD_eq_default (m.map _) [] (by simpa using Nat.le_of_not_lt hi),
        List.getD_eq_default m [] (Nat.le_of_not_lt hi)]
    rfl

/-- C2: each of src_mask, diff_alignment_mask, diff_prev_mask and
diff_updated_mask holds at a position exactly when the corresponding
token differs from the pad index, and with a target present trg_mask
holds exactly where trg_y differs from the pad index. -/
theorem Seq2Seq.Batch.masks_iff_ne_pad
    (src diff_alignment diff_prev diff_updated : List (List Nat) × List Nat)
    (trg_full : List (List Nat)) (trg_lengths : List Nat) (pad_index : Nat)
    (i j : Nat) :
    ((((Seq2Seq.Batch.init src (some (trg_full, trg_lengths)) diff_alignment
          diff_prev diff_updated pad_index).src_mask.getD i []).getD 0 []).getD j false
        = true ↔ (src.1.getD i []).getD j pad_index ≠ pad_index) ∧
    ((((Seq2Seq.Batch.init src (some (trg_full, trg_lengths)) diff_alignment
          diff_prev diff_updated pad_index).diff_alignment_mask.getD i []).getD 0
            []).getD j false
        = true ↔ (diff_alignment.1.getD i []).getD j pad_index ≠ pad_index) ∧
    ((((Seq2Seq.Batch.init src (some (trg_full, trg_lengths)) diff_alignment
          diff_prev diff_updated pad_index).diff_prev_mask.getD i []).getD 0
            []).getD j false
        = true ↔ (diff_prev.1.getD i []).getD j pad_index ≠ pad_index) ∧
    ((((Seq2Seq.Batch.init src (some (trg_full, trg_lengths)) diff_alignment
          diff_prev diff_updated pad_index).diff_updated_mask.getD i []).getD 0
            []).getD j false
        = true ↔ (diff_updated.1.getD i []).getD j pad_index ≠ pad_index) ∧
    ((((Seq2Seq.Batch.init src (some (trg_full, trg_lengths)) diff_alignment
          diff_prev diff_updated pad_index).trg_mask.getD []).getD i []).getD j false
        = true ↔
      (((Seq2Seq.Batch.init src (some (trg_full, trg_lengths)) diff_alignment
          diff_prev diff_updated pad_index).trg_y.getD []).getD i []).getD j
          pad_index ≠ pad_index) := by
  refine ⟨?_, ?_, ?_, ?_, ?_⟩
  · rw [show (Seq2Seq.Batch.init src (some (trg_full, trg_lengths)) diff_alignment
        diff_prev diff_updated pad_index).src_mask =
        Seq2Seq.unsqueezeMinus2 (Seq2Seq.neMask src.1 pad_index) from rfl,
      Seq2Seq.unsqueezeMinus2_getD]
    exact Seq2Seq.neMask_getD src.1 pad_index i j
  · rw [show (Seq2Seq.Batch.init src (some (trg_full, trg_lengths)) diff_alignment
        diff_prev diff_updated pad_index).diff_alignment_mask =
        Seq2Seq.unsqueezeMinus2 (Seq2Seq.neMask diff_alignment.1 pad_index) from rfl,
      Seq2Seq.unsqueezeMinus2_getD]
    exact Seq2Seq.neMask_getD diff_alignment.1 pad_index i j
  · rw [show (Seq2Seq.Batch.init src (some (trg_full, trg_lengths)) diff_alignment
        diff_prev diff_updated pad_index).diff_prev_mask =
        Seq2Seq.unsqueezeMinus2 (Seq2Seq.neMask diff_prev.1 pad_index) from rfl,
      Seq2Seq.unsqueezeMinus2_getD]
    exact Seq2Seq.neMask_getD diff_prev.1 pad_index i j
  · rw [show (Seq2Seq.Batch.init src (some (trg_full, trg_lengths)) diff_alignment
        diff_prev diff_updated pad_index).diff_updated_mask =
        Seq2Seq.unsqueezeMinus2 (Seq2Seq.neMask diff_updated.1 pad_index) from rfl,
      Seq2Seq.unsqueezeMinus2_getD]
    exact Seq2Seq.neMask_getD diff_updated.1 pad_index i j
  · rw [show (Seq2Seq.Batch.init src (some (trg_full, trg_lengths)) diff_alignment
        diff_prev diff_updated pad_index).trg_mask =
        some (Seq2Seq.neMask (trg_full.map (fun row => row.drop 1)) pad_index)
        from rfl,
      show (Seq2Seq.Batch.init src (some (trg_full, trg_lengths)) diff_alignment
        diff_prev diff_updated pad_index).trg_y =
        some (trg_full.map (fun row => row.drop 1)) from rfl,
      Option.getD_some, Option.getD_some]
    exact Seq2Seq.neMask_getD (trg_full.map (fun row => row.drop 1)) pad_index i j

/-- C3: with a target present, trg drops the last time-step column of
the full target, trg_y drops the first, and ntokens counts the non-pad
entries of trg_y; with no target, all five target fields are None. -/
theorem Seq2Seq.Batch.trg_fields_spec
    (src diff_alignment diff_prev diff_updated : List (List Nat) × List Nat)
    (trg_full : List (List Nat)) (trg_lengths : List Nat) (pad_index : Nat) :
    (Seq2Seq.Batch.init src (some (trg_full, trg_lengths)) diff_alignment
        diff_prev diff_updated pad_index).trg =
      some (trg_full.map List.dropLast) ∧
    (Seq2Seq.Batch.init src (some (trg_full, trg_lengths)) diff_alignment
        diff_prev diff_updated pad_index).trg_y =
      some (trg_full.map (fun row => row.drop 1)) ∧
    (Seq2Seq.Batch.init src (some (trg_full, trg_lengths)) diff_alignment
        diff_prev diff_updated pad_index).trg_lengths = some trg_lengths ∧
    (Seq2Seq.Batch.init src (some (trg_full, trg_lengths)) diff_alignment
        diff_prev diff_updated pad_index).ntokens =
      some (((trg_full.map (fun row => row.drop 1)).flatten).countP
        (fun tok => tok != pad_index)) ∧
    (Seq2Seq.Batch.init src none diff_alignment diff_prev diff_updated
        pad_index).trg = none ∧
    (Seq2Seq.Batch.init src none diff_alignment diff_prev diff_updated
        pad_index).trg_y = none ∧
    (Seq2Seq.Batch.init src none diff_alignment diff_prev diff_updated
        pad_index).trg_mask = none ∧
    (Seq2Seq.Batch.init src none diff_alignment diff_prev diff_updated
        pad_index).trg_lengths = none ∧
    (Seq2Seq.Batch.init src none diff_alignment diff_prev diff_updated
        pad_index).ntokens = none := by
  refine ⟨?_, rfl, rfl, ?_, rfl, rfl, rfl, rfl, rfl⟩
  · rw [show (Seq2Seq.Batch.init src (some (trg_full, trg_lengths)) diff_alignment
        diff_prev diff_updated pad_index).trg =
        some (trg_full.map (fun row => row.take (row.length - 1))) from rfl]
    congr 1
    exact List.map_congr_left (fun row _ => (List.dropLast_eq_take row).symm)
  · rw [show (Seq2Seq.Batch.init src (some (trg_full, trg_lengths)) diff_alignment
        diff_prev diff_updated pad_index).ntokens =
        some (((trg_full.map (fun row => row.drop 1)).map
          (fun row => row.countP (fun tok => tok != pad_index))).sum) from rfl]
    congr 1
    rw [List.countP_flatten]

theorem Seq2Seq.sortPermDesc_perm (lengths : List Nat) :
    (Seq2Seq.sortPermDesc lengths).Perm (List.range lengths.length) :=
  List.mergeSort_perm _ _

theorem Seq2Seq.sortPermDesc_length (lengths : List Nat) :
    (Seq2Seq.sortPermDesc lengths).length = lengths.length := by
  rw [(Seq2Seq.sortPermDesc_perm lengths).length_eq, List.length_range]

theorem Seq2Seq.mem_sortPermDesc (lengths : List Nat) (i : Nat)
    (hi : i < lengths.length) : i ∈ Seq2Seq.sortPermDesc lengths := by
  rw [(Seq2Seq.sortPermDesc_perm lengths).mem_iff, List.mem_range]
  exact hi

/-- C1: the sort=True branch of Encoder.forward equals sorting by
descending length, running the sort=False path on the sorted batch, and
permuting output rows and the batch dimension of both final states back;
consequently row i of the returned output is the row the sort=False path
computed for the sequence that sits at index i of the original batch. -/
theorem Seq2Seq.Encoder.forward_sort_refines
    (rnn : List (List Seq2Seq.Emb) → List Nat → Seq2Seq.RnnResult)
    (x : List (List Seq2Seq.Emb)) (lengths : List Nat) :
    Seq2Seq.Encoder.forward rnn x lengths true =
      Seq2Seq.Encoder.forwardSpecViaSort rnn x lengths ∧
    (∀ i, i < lengths.length →
      ∃ j, j < (Seq2Seq.sortPermDesc lengths).length ∧
        (Seq2Seq.sortPermDesc lengths).getD j 0 = i ∧
        ((Seq2Seq.sortPermDesc lengths).map (fun k => x.getD k [])).getD j [] =
          x.getD i [] ∧
        (Seq2Seq.Encoder.forward rnn x lengths true).1.getD i [] =
          (Seq2Seq.Encoder.forward rnn
              ((Seq2Seq.sortPermDesc lengths).map (fun k => x.getD k []))
              ((Seq2Seq.sortPermDesc lengths).map (fun k => lengths.getD k 0))
              false).1.getD j []) := by
  constructor
  · rfl
  · intro i hi
    have hmem : i ∈ Seq2Seq.sortPermDesc lengths :=
      Seq2Seq.mem_sortPermDesc lengths i hi
    have hj : List.indexOf i (Seq2Seq.sortPermDesc lengths) <
        (Seq2Seq.sortPermDesc lengths).length :=
      List.indexOf_lt_length.mpr hmem
    refine ⟨List.indexOf i (Seq2Seq.sortPermDesc lengths), hj, ?_, ?_, ?_⟩
    · rw [List.getD_eq_getElem _ _ hj]
      exact List.getElem_indexOf hj
    · rw [List.getD_eq_getElem _ _ (by simpa using hj), List.getElem_map,
          List.getElem_indexOf hj]
    · show ((Seq2Seq.argsortPerm (Seq2Seq.sortPermDesc lengths)).map
          (fun k => (rnn ((Seq2Seq.sortPermDesc lengths).map (fun k => x.getD k []))
            ((Seq2Seq.sortPermDesc lengths).map (fun k => lengths.getD k 0))).output.getD
              k [])).getD i [] =
        (rnn ((Seq2Seq.sortPermDesc lengths).map (fun k => x.getD k []))
          ((Seq2Seq.sortPermDesc lengths).map (fun k => lengths.getD k 0))).output.getD
            (List.indexOf i (Seq2Seq.sortPermDesc lengths)) []
      have hilt : i < (Seq2Seq.argsortPerm (Seq2Seq.sortPermDesc lengths)).length := by
        rw [Seq2Seq.argsortPerm, List.length_map, List.length_range,
            Seq2Seq.sortPermDesc_length]
        exact hi
      rw [List.getD_eq_getElem _ _ (by simpa using hilt), List.getElem_map]
      congr 1
      simp only [Seq2Seq.argsortPerm, List.getElem_map, List.getElem_range]

theorem Seq2Seq.catFinalStates_length (s : List (List Seq2Seq.Emb)) (L : Nat)
    (hs : s.length = 2 * L) : (Seq2Seq.catFinalStates s).length = L := by
  show (List.zipWith (fun f b => List.zipWith (fun xe ye => xe ++ ye) f b)
      (everyOther s) (everyOther s.tail)).length = L
  rw [List.length_zipWith, everyOther_length, everyOther_length, List.length_tail,
      hs]
  omega

theorem Seq2Seq.catFinalStates_getElem? (s : List (List Seq2Seq.Emb)) (L : Nat)
    (hs : s.length = 2 * L) (l : Nat) (hl : l < L) :
    (Seq2Seq.catFinalStates s)[l]? =
      some (List.zipWith (fun fe be => fe ++ be) (s.getD (2 * l) [])
        (s.getD (2 * l + 1) [])) := by
  show (List.zipWith (fun f b => List.zipWith (fun xe ye => xe ++ ye) f b)
      (everyOther s) (everyOther s.tail))[l]? = _
  rw [List.getElem?_zipWith, everyOther_getElem?, everyOther_getElem?,
      ← List.drop_one, List.getElem?_drop]
  have h1 : 2 * l < s.length := by omega
  have h2 : 2 * l + 1 < s.length := by omega
  have e1 : s[2 * l]? = some s[2 * l] := List.getElem?_eq_getElem h1
  have heq : 1 + 2 * l = 2 * l + 1 := by omega
  have e2 : s[1 + 2 * l]? = some s[2 * l + 1] := by
    rw [heq]
    exact List.getElem?_eq_getElem h2
  rw [e1, e2, List.getD_eq_getElem s [] h1, List.getD_eq_getElem s [] h2]

theorem Seq2Seq.catFinalStates_shape (s : List (List Seq2Seq.Emb)) (L B H : Nat)
    (hs : s.length = 2 * L)
    (hS : ∀ sl ∈ s, sl.length = B ∧ ∀ e ∈ sl, e.length = H) :
    ∀ layer ∈ Seq2Seq.catFinalStates s,
      layer.length = B ∧ ∀ e ∈ layer, e.length = 2 * H := by
  intro layer hmem
  rw [List.mem_iff_getElem] at hmem
  obtain ⟨l, hlt, hlayer⟩ := hmem
  have hlL : l < L := by
    have := Seq2Seq.catFinalStates_length s L hs
    omega
  have hget := Seq2Seq.catFinalStates_getElem? s L hs l hlL
  have h2 : (Seq2Seq.catFinalStates s)[l]? = some layer := by
    rw [List.getElem?_eq_getElem hlt, hlayer]
  rw [h2] at hget
  have hlayer_eq := Option.some_inj.mp hget
  have h2l : 2 * l < s.length := by omega
  have h2l1 : 2 * l + 1 < s.length := by omega
  have hA := hS s[2 * l] (List.getElem_mem h2l)
  have hB := hS s[2 * l + 1] (List.getElem_mem h2l1)
  rw [List.getD_eq_getElem s [] h2l, List.getD_eq_getElem s [] h2l1] at hlayer_eq
  subst hlayer_eq
  constructor
  · rw [List.length_zipWith, hA.1, hB.1]
    omega
  · intro e he
    rw [List.mem_iff_getElem] at he
    obtain ⟨k, hk, hke⟩ := he
    rw [← hke, List.getElem_zipWith, List.length_append]
    have hk1 : k < s[2 * l].length := by
      rw [List.length_zipWith] at hk
      omega
    have hk2 : k < s[2 * l + 1].length := by
      rw [List.length_zipWith] at hk
      omega
    rw [hA.2 _ (List.getElem_mem hk1), hB.2 _ (List.getElem_mem hk2)]
    omega

/-- C4: on the sort=False path the returned hidden and cell states stack,
for each layer, the forward-direction final state (even raw row 2l)
concatenated featurewise with the backward-direction final state (odd
raw row 2l+1), producing shape [NumLayers, B, 2 * H]. -/
theorem Seq2Seq.Encoder.forward_final_states_concat
    (rnn : List (List Seq2Seq.Emb) → List Nat → Seq2Seq.RnnResult)
    (x : List (List Seq2Seq.Emb)) (lengths : List Nat) (L B H : Nat)
    (hhL : (rnn x lengths).h_n.length = 2 * L)
    (hcL : (rnn x lengths).c_n.length = 2 * L)
    (hhS : ∀ sl ∈ (rnn x lengths).h_n, sl.length = B ∧ ∀ e ∈ sl, e.length = H)
    (hcS : ∀ sl ∈ (rnn x lengths).c_n, sl.length = B ∧ ∀ e ∈ sl, e.length = H) :
    (Seq2Seq.Encoder.forward rnn x lengths false).2.1.length = L ∧
    (Seq2Seq.Encoder.forward rnn x lengths false).2.2.length = L ∧
    (∀ layer ∈ (Seq2Seq.Encoder.forward rnn x lengths false).2.1,
      layer.length = B ∧ ∀ e ∈ layer, e.length = 2 * H) ∧
    (∀ layer ∈ (Seq2Seq.Encoder.forward rnn x lengths false).2.2,
      layer.length = B ∧ ∀ e ∈ layer, e.length = 2 * H) ∧
    (∀ l, l < L →
      (Seq2Seq.Encoder.forward rnn x lengths false).2.1[l]? =
        some (List.zipWith (fun fe be => fe ++ be)
          ((rnn x lengths).h_n.getD (2 * l) [])
          ((rnn x lengths).h_n.getD (2 * l + 1) [])) ∧
      (Seq2Seq.Encoder.forward rnn x lengths false).2.2[l]? =
        some (List.zipWith (fun fe be => fe ++ be)
          ((rnn x lengths).c_n.getD (2 * l) [])
          ((rnn x lengths).c_n.getD (2 * l + 1) []))) := by
  have eh : (Seq2Seq.Encoder.forward rnn x lengths false).2.1 =
      Seq2Seq.catFinalStates (rnn x lengths).h_n := rfl
  have ec : (Seq2Seq.Encoder.forward rnn x lengths false).2.2 =
      Seq2Seq.catFinalStates (rnn x lengths).c_n := rfl
  rw [eh, ec]
  refine ⟨Seq2Seq.catFinalStates_length _ L hhL,
    Seq2Seq.catFinalStates_length _ L hcL,
    Seq2Seq.catFinalStates_shape _ L B H hhL hhS,
    Seq2Seq.catFinalStates_shape _ L B H hcL hcS,
    fun l hl => ⟨Seq2Seq.catFinalStates_getElem? _ L hhL l hl,
      Seq2Seq.catFinalStates_getElem? _ L hcL l hl⟩⟩

/-- A concrete batch of two embedded sequences used to instantiate the
encoder theorems. -/
def Seq2Seq.testX : List (List Seq2Seq.Emb) := [[[10]], [[20], [21]]]

/-- A concrete stand-in for the packed LSTM call, with fixed final
states of shape [2 * 1, 2, 1]. -/
def Seq2Seq.testRnn : List (List Seq2Seq.Emb) → List Nat → Seq2Seq.RnnResult :=
  fun xs _ =>
    { output := xs
      h_n := [[[1], [2]], [[3], [4]]]
      c_n := [[[5], [6]], [[7], [8]]] }

theorem Seq2Seq.Encoder.forward_sort_refines_witness :
    Seq2Seq.Encoder.forward Seq2Seq.testRnn Seq2Seq.testX [1, 2] true =
      Seq2Seq.Encoder.forwardSpecViaSort Seq2Seq.testRnn Seq2Seq.testX [1, 2] ∧
    (∃ j, j < (Seq2Seq.sortPermDesc [1, 2]).length ∧
      (Seq2Seq.sortPermDesc [1, 2]).getD j 0 = 0 ∧
      ((Seq2Seq.sortPermDesc [1, 2]).map
          (fun k => Seq2Seq.testX.getD k [])).getD j [] =
        Seq2Seq.testX.getD 0 [] ∧
      (Seq2Seq.Encoder.forward Seq2Seq.testRnn Seq2Seq.testX [1, 2] true).1.getD 0 [] =
        (Seq2Seq.Encoder.forward Seq2Seq.testRnn
            ((Seq2Seq.sortPermDesc [1, 2]).map (fun k => Seq2Seq.testX.getD k []))
            ((Seq2Seq.sortPermDesc [1, 2]).map (fun k => List.getD [1, 2] k 0))
            false).1.getD j []) :=
  ⟨(Seq2Seq.Encoder.forward_sort_refines Seq2Seq.testRnn Seq2Seq.testX [1, 2]).1,
   (Seq2Seq.Encoder.forward_sort_refines Seq2Seq.testRnn Seq2Seq.testX [1, 2]).2 0
     (by decide)⟩

theorem Seq2Seq.Encoder.forward_final_states_concat_witness :
    (Seq2Seq.Encoder.forward Seq2Seq.testRnn Seq2Seq.testX [1, 1] false).2.1.length
        = 1 ∧
    (Seq2Seq.Encoder.forward Seq2Seq.testRnn Seq2Seq.testX [1, 1] false).2.1[0]? =
      some (List.zipWith (fun fe be => fe ++ be)
        ((Seq2Seq.testRnn Seq2Seq.testX [1, 1]).h_n.getD (2 * 0) [])
        ((Seq2Seq.testRnn Seq2Seq.testX [1, 1]).h_n.getD (2 * 0 + 1) [])) :=
  ⟨(Seq2Seq.Encoder.forward_final_states_concat Seq2Seq.testRnn Seq2Seq.testX
      [1, 1] 1 2 1 (by decide) (by decide) (by decide) (by decide)).1,
   ((Seq2Seq.Encoder.forward_final_states_concat Seq2Seq.testRnn Seq2Seq.testX
      [1, 1] 1 2 1 (by decide) (by decide) (by decide) (by decide)).2.2.2.2 0
      (by decide)).1⟩

/-- C8: with no optimizer, calling ClassifierLossCompute returns the
scalar value of criterion(x, y.float()) and performs no effect, leaving
any training state unchanged; with an optimizer it returns the same
scalar and performs backward, step and zero_grad in that order. -/
theorem Seq2Seq.ClassifierLossCompute.call_effects {T V O P : Type}
    (criterion : T → T → V) (float : T → T) (x y : T)
    (backwardFn stepFn zeroFn : P → P) (s : P) :
    (Seq2Seq.ClassifierLossCompute.call
        { criterion := criterion, optimizer := (none : Option O) } float x y =
      (criterion x (float y), []) ∧
     Seq2Seq.runEffects backwardFn stepFn zeroFn
        (Seq2Seq.ClassifierLossCompute.call
          { criterion := criterion, optimizer := (none : Option O) } float x y).2 s
        = s) ∧
    (∀ opt : O,
      Seq2Seq.ClassifierLossCompute.call
          { criterion := criterion, optimizer := some opt } float x y =
        (criterion x (float y),
         [Seq2Seq.TrainEffect.backward, Seq2Seq.TrainEffect.step,
          Seq2Seq.TrainEffect.zero_grad]) ∧
      Seq2Seq.runEffects backwardFn stepFn zeroFn
          (Seq2Seq.ClassifierLossCompute.call
            { criterion := criterion, optimizer := some opt } float x y).2 s =
        zeroFn (stepFn (backwardFn s))) :=
  ⟨⟨rfl, rfl⟩, fun _ => ⟨rfl, rfl⟩⟩

theorem Seq2Seq.beamScoreOrder_trans (a b c : Seq2Seq.Hypothesis) :
    (decide (b.score ≤ a.score)) = true → (decide (c.score ≤ b.score)) = true →
      (decide (c.score ≤ a.score)) = true := by
  simp only [decide_eq_true_eq]
  exact fun h1 h2 => le_trans h2 h1

theorem Seq2Seq.beamScoreOrder_total (a b : Seq2Seq.Hypothesis) :
    ((decide (b.score ≤ a.score)) || (decide (a.score ≤ b.score))) = true := by
  simp only [Bool.or_eq_true, decide_eq_true_eq]
  exact le_total b.score a.score

/-- C6: the decode method held by AccuracyCalculation is the beam search
configured with TOKENS_CODE_CHUNK_MAX_LEN + 1 generation steps, each
step keeping at most BEAM_SIZE hypotheses, and every hypothesis a step
keeps scores at least as high as every candidate the step discards. -/
theorem Seq2Seq.AccuracyCalculation.beam_search_spec (config : Seq2Seq.Config)
    (expand : Seq2Seq.Hypothesis → List Seq2Seq.Hypothesis) :
    (Seq2Seq.AccuracyCalculation.init config expand).beam_search =
      (fun beams => Seq2Seq.beamStep expand config.BEAM_SIZE beams)^[
        config.TOKENS_CODE_CHUNK_MAX_LEN + 1]
        [{ tokens := [config.sos_index], score := 0 }] ∧
    (Seq2Seq.AccuracyCalculation.init config expand).beam_size =
      config.BEAM_SIZE ∧
    (∀ beams, (Seq2Seq.beamStep expand config.BEAM_SIZE beams).length ≤
      config.BEAM_SIZE) ∧
    (∀ beams, ∀ a ∈ Seq2Seq.beamStep expand config.BEAM_SIZE beams,
      ∀ b ∈ (((beams.map expand).flatten).mergeSort
          (fun a b => b.score ≤ a.score)).drop config.BEAM_SIZE,
        b.score ≤ a.score) := by
  refine ⟨rfl, rfl, ?_, ?_⟩
  · intro beams
    show ((((beams.map expand).flatten).mergeSort
        (fun a b => b.score ≤ a.score)).take config.BEAM_SIZE).length ≤
      config.BEAM_SIZE
    rw [List.length_take]
    exact min_le_left _ _
  · intro beams a ha b hb
    have hpair := List.sorted_mergeSort Seq2Seq.beamScoreOrder_trans
      Seq2Seq.beamScoreOrder_total ((beams.map expand).flatten)
    rw [← List.take_append_drop config.BEAM_SIZE
        ((((beams.map expand).flatten).mergeSort
          (fun a b => b.score ≤ a.score)))] at hpair
    rw [List.pairwise_append] at hpair
    have := hpair.2.2 a ha b hb
    exact decide_eq_true_eq.mp this

/-- Concrete expansion function used to instantiate the C6 theorem. -/
def Seq2Seq.testExpand : Seq2Seq.Hypothesis → List Seq2Seq.Hypothesis :=
  fun h => [{ tokens := h.tokens ++ [0], score := h.score - 1 },
            { tokens := h.tokens ++ [1], score := h.score + 1 }]

/-- Concrete configuration used to instantiate the C6 theorem. -/
def Seq2Seq.testConfig : Seq2Seq.Config :=
  { TOKENS_CODE_CHUNK_MAX_LEN := 2, BEAM_SIZE := 2, sos_index := 1, eos_index := 2 }

theorem Seq2Seq.AccuracyCalculation.beam_search_spec_witness :
    (Seq2Seq.AccuracyCalculation.init Seq2Seq.testConfig
        Seq2Seq.testExpand).beam_search =
      (fun beams => Seq2Seq.beamStep Seq2Seq.testExpand
        Seq2Seq.testConfig.BEAM_SIZE beams)^[
          Seq2Seq.testConfig.TOKENS_CODE_CHUNK_MAX_LEN + 1]
        [{ tokens := [Seq2Seq.testConfig.sos_index], score := 0 }] ∧
    (Seq2Seq.beamStep Seq2Seq.testExpand Seq2Seq.testConfig.BEAM_SIZE
        [{ tokens := [1], score := 0 }]).length ≤
      Seq2Seq.testConfig.BEAM_SIZE :=
  ⟨(Seq2Seq.AccuracyCalculation.beam_search_spec Seq2Seq.testConfig
      Seq2Seq.testExpand).1,
   (Seq2Seq.AccuracyCalculation.beam_search_spec Seq2Seq.testConfig
      Seq2Seq.testExpand).2.2.1 [{ tokens := [1], score := 0 }]⟩

theorem PatchNet.get_examples_text_data_pairs_witness :
    (PatchNet.get_examples_text_data ["a", "b", "c"]).length =
      (["a", "b", "c"] : List String).length / 2 ∧
    (PatchNet.get_examples_text_data ["a", "b", "c"]).getD 0 ("", "") =
      ((["a", "b", "c"] : List String).getD (2 * 0) "",
       (["a", "b", "c"] : List String).getD (2 * 0 + 1) "") ∧
    (2 * 0 ≠ (["a", "b", "c"] : List String).length - 1 ∧
     2 * 0 + 1 ≠ (["a", "b", "c"] : List String).length - 1) :=
  ⟨(PatchNet.get_examples_text_data_pairs ["a", "b", "c"]).1,
   (PatchNet.get_examples_text_data_pairs ["a", "b", "c"]).2.1 0 (by decide),
   (PatchNet.get_examples_text_data_pairs ["a", "b", "c"]).2.2 (by decide) 0
     (by decide)⟩
